import Mathlib

/-!
Shallow embedding of the feature-flag evaluation engine
(`evaluation/evaluator.go`) of the ff-golang-server-sdk repository.

Pure Go functions become Lean functions; pointer-typed parameters that the
source checks against `nil` become `Option` values; fallible operations
return `Except`.  The two unbounded recursions of the source (segment-match
clauses inside segment rules, and the prerequisite walk) are made total with
an explicit fuel parameter; the source performs the same recursion with no
bound at all, so every concrete behaviour of the source is reproduced at a
large enough fuel.

External collaborators that are repository or standard-library code not part
of the given source files (the distribution bucketer, the regular-expression
matcher, numeric and JSON decoding) are fields of the `Env` structure, so all
theorems hold for every behaviour of those collaborators.
-/

/-- Feature state constant `rest.FeatureStateOn` ("on"). -/
def FeatureStateOn : String := "on"

/-- Feature state constant `rest.FeatureStateOff` ("off"). -/
def FeatureStateOff : String := "off"

/-- Operator constant for segment membership. -/
def segmentMatchOperator : String := "segmentMatch"

/-- Operator constant for regular-expression matching. -/
def matchOperator : String := "match"

/-- Operator constant for list membership. -/
def inOperator : String := "in"

/-- Operator constant for case-insensitive equality. -/
def equalOperator : String := "equal"

/-- Operator constant for lexicographic greater-than. -/
def gtOperator : String := "gt"

/-- Operator constant for textual prefix matching. -/
def startsWithOperator : String := "starts_with"

/-- Operator constant for textual suffix matching. -/
def endsWithOperator : String := "ends_with"

/-- Operator constant for substring matching. -/
def containsOperator : String := "contains"

/-- Operator constant for case-sensitive equality. -/
def equalSensitiveOperator : String := "equal_sensitive"

/-- The reflected value of a target attribute, as the `reflect.Kind` switch of
`evaluateClause` distinguishes it: `intVal` covers kinds `Int` and `Int64`,
`boolVal` kind `Bool`, `strVal` kind `String`; `otherVal` covers every other
kind (its field carries the generic `%v` textual rendering of the underlying
value, which the source computes for no other kind); `invalid` is a
`reflect.Value` for which `IsValid` reports false (absent attribute). -/
inductive AttrValue where
  | invalid
  | intVal (i : Int)
  | boolVal (b : Bool)
  | strVal (s : String)
  | otherVal (text : String)
deriving Repr, DecidableEq, BEq

/-- A target: the entity a flag is evaluated for (`evaluation.Target`). -/
structure Target where
  identifier : String
  name : String
  anonymous : Bool
  attributes : List (String × AttrValue)
deriving Repr, DecidableEq

/-- One concrete value option of a flag (`rest.Variation`). -/
structure Variation where
  identifier : String
  value : String
deriving Repr, DecidableEq

/-- One weighted entry of a percentage rollout (`rest.WeightedVariation`). -/
structure WeightedVariation where
  variation : String
  weight : Int
deriving Repr, DecidableEq

/-- A percentage rollout (`rest.Distribution`). -/
structure Distribution where
  bucketBy : String
  variations : List WeightedVariation
deriving Repr, DecidableEq

/-- What a matched rule or the default serve dispenses (`rest.Serve`): a
distribution or a fixed variation identifier, both optional pointers. -/
structure Serve where
  distribution : Option Distribution
  variation : Option String
deriving Repr, DecidableEq

/-- One boolean condition on a target attribute (`rest.Clause`); `attrName`
renders the source's `Attribute` field, a keyword in Lean. -/
structure Clause where
  attrName : String
  op : String
  values : List String
deriving Repr, DecidableEq

/-- A prioritized targeting rule (`rest.ServingRule`). -/
structure ServingRule where
  priority : Int
  clauses : List Clause
  serve : Serve
deriving Repr, DecidableEq

/-- An entry of an override's explicit target list (`rest.TargetMap`); the
identifier is a string pointer in the source. -/
structure TargetMap where
  identifier : Option String
deriving Repr, DecidableEq

/-- A per-target / per-segment variation override (`rest.VariationMap`). -/
structure VariationMap where
  variation : String
  targets : Option (List TargetMap)
  targetSegments : Option (List String)
deriving Repr, DecidableEq

/-- A prerequisite: a flag identifier plus the allowed variation identifiers
(`rest.Prerequisite`). -/
structure Prerequisite where
  feature : String
  variations : List String
deriving Repr, DecidableEq

/-- A feature configuration (`rest.FeatureConfig`): the fields the evaluator
reads.  `state` and `kind` are strings on the wire; optional pointers become
`Option`. -/
structure FeatureConfig where
  feature : String
  kind : String
  state : String
  variations : List Variation
  offVariation : String
  defaultServe : Serve
  rules : Option (List ServingRule)
  variationToTargetMap : Option (List VariationMap)
  prerequisites : Option (List Prerequisite)
deriving Repr, DecidableEq

/-- A named reusable group of targets (`rest.Segment`). -/
structure Segment where
  identifier : String
  name : String
  excluded : Option (List Target)
  included : Option (List Target)
  rules : Option (List Clause)
deriving Repr, DecidableEq

/-- A JSON value, the decoding result type of `JSONVariation`'s
`json.Unmarshal` call (numbers kept as their literal text). -/
inductive JsonValue where
  | null
  | boolVal (b : Bool)
  | strVal (s : String)
  | numVal (lit : String)
  | arrVal (xs : List JsonValue)
  | objVal (fields : List (String × JsonValue))

/-- Errors of the evaluation pipeline (package-level `Err...` values). -/
inductive EvalErr where
  | flagNotFound
  | flagKindMismatch
  | variationNotFound
  | evaluationFlag
deriving Repr, DecidableEq

/-- The evaluation environment.  `getFlag` and `getSegment` are the `Query`
provider (an error result becomes `none`).  The remaining fields stand for
collaborators whose code is outside the given source: `evalDistribution` is
the repository's distribution bucketer (spec: deterministically maps a target
into one of several weighted variations; called with a possibly-nil
distribution pointer), `regexMatch` is `regexp.MatchString` (pattern, text;
`none` models an error result), `parseFloat` is `strconv.ParseFloat`, and
`jsonParse` is `json.Unmarshal` into a string-keyed map.  Keeping them
abstract makes every theorem hold for all of their behaviours. -/
structure Env where
  getFlag : String → Option FeatureConfig
  getSegment : String → Option Segment
  evalDistribution : Option Distribution → Option Target → String
  regexMatch : String → String → Option Bool
  parseFloat : String → Option Float
  jsonParse : String → Option (List (String × JsonValue))

/-- ASCII lowering of one character, the character step of Go's
`strings.ToLower` (which is Unicode-aware; ASCII folding models it on the
ASCII data of this development). -/
def lowerChar (c : Char) : Char :=
  if 65 ≤ c.toNat && c.toNat ≤ 90 then Char.ofNat (c.toNat + 32) else c

/-- String lowering by `lowerChar`, the meaning of Go's `strings.ToLower`. -/
def lowerStr (s : String) : String := String.mk (s.data.map lowerChar)

/-- Whether the first character list is a prefix of the second, the core of
Go's `strings.HasPrefix`. -/
def charsPrefix : List Char → List Char → Bool
  | [], _ => true
  | _ :: _, [] => false
  | p :: ps, s :: ss => p == s && charsPrefix ps ss

/-- Go's `strings.HasPrefix s pre`. -/
def strStartsWith (s pre : String) : Bool := charsPrefix pre.data s.data

/-- Go's `strings.HasSuffix s suf`. -/
def strEndsWith (s suf : String) : Bool :=
  charsPrefix suf.data.reverse s.data.reverse

/-- Modelled from the spec: `getAttrValue` resolves a named attribute on a
target — built-in fields (identifier, name, anonymous) first by reserved
name, falling through to the custom attribute mapping, case-insensitively; a
nil target or an unknown name yields an invalid value. -/
def getAttrValue (target : Option Target) (attrName : String) : AttrValue :=
  match target with
  | none => .invalid
  | some t =>
    let key := lowerStr attrName
    if key == "identifier" then .strVal t.identifier
    else if key == "name" then .strVal t.name
    else if key == "anonymous" then .boolVal t.anonymous
    else
      match t.attributes.find? (fun kv => lowerStr kv.fst == key) with
      | some kv => kv.snd
      | none => .invalid

/-- Modelled from the spec: `findVariation` looks up a variation identifier in
the flag's variation list; an absent identifier surfaces as the
variation-not-found evaluation error. -/
def findVariation (variations : List Variation) (identifier : String) :
    Except EvalErr Variation :=
  match variations.find? (fun v => v.identifier == identifier) with
  | some v => .ok v
  | none => .error .variationNotFound

/-- Modelled from the spec: the `contains` helper — membership of a string in
a string list (used for the prerequisite's allowed variation set). -/
def containsVal (xs : List String) (s : String) : Bool :=
  xs.any (fun x => x == s)

/-- Modelled from the spec: `isTargetInList` — whether the target appears, by
identifier, in a list of targets (used for segment include/exclude lists). -/
def isTargetInList (target : Option Target) (list : List Target) : Bool :=
  match target with
  | none => false
  | some t => list.any (fun x => x.identifier == t.identifier)

/-- Lexicographic greater-than on strings by code point, the meaning of Go's
`object > value` on UTF-8 text. -/
def charsGt : List Char → List Char → Bool
  | [], _ => false
  | _ :: _, [] => true
  | a :: as, b :: bs =>
    if a.val > b.val then true
    else if b.val > a.val then false
    else charsGt as bs

/-- String version of `charsGt`. -/
def strGt (x y : String) : Bool := charsGt x.data y.data

/-- Occurrence of the second character list inside the first, the core of
Go's `strings.Contains`. -/
def charsContains : List Char → List Char → Bool
  | [], sub => sub.isEmpty
  | c :: rest, sub => charsPrefix sub (c :: rest) || charsContains rest sub

/-- Substring test, the meaning of Go's `strings.Contains`. -/
def strContains (s sub : String) : Bool := charsContains s.data sub.data

/-- The textual coercion the clause evaluator applies to a resolved attribute
value (the `reflect.Kind` switch at the top of `evaluateClause`): decimal for
int kinds, "true"/"false" for bool, the string itself for strings.  For every
other kind the source executes `object = fmt.Sprintf("%v", object)` — it
formats the `object` accumulator, still holding its initial empty string,
rather than the attribute value — so every other kind coerces to `""`. -/
def attrValueText : AttrValue → String
  | .intVal i => toString i
  | .boolVal b => if b then "true" else "false"
  | .strVal s => s
  | .otherVal _ => ""
  | .invalid => ""

/-- Modelled from the spec: the coercion the spec describes for the fallback
case — every kind other than int/bool/string falls back to a generic textual
representation of the value itself (Go's `%v` rendering). -/
def attrValueTextSpec : AttrValue → String
  | .intVal i => toString i
  | .boolVal b => if b then "true" else "false"
  | .strVal s => s
  | .otherVal text => text
  | .invalid => ""

/-- Whether the segment has an exclusion list holding the target (the
`segment.Excluded != nil && isTargetInList(...)` condition). -/
def segmentExcludes (segment : Segment) (target : Option Target) : Bool :=
  match segment.excluded with
  | some l => isTargetInList target l
  | none => false

/-- Whether the segment has an inclusion list holding the target (the
`segment.Included != nil && isTargetInList(...)` condition). -/
def segmentIncludes (segment : Segment) (target : Option Target) : Bool :=
  match segment.included with
  | some l => isTargetInList target l
  | none => false

/-- Generic segment scan (`isTargetIncludedOrExcludedInSegment`'s loop),
parameterized by the clause-list evaluator so the mutual recursion with
`evaluateClause` can be tied by fuel: iterate the segment identifiers in
order; a failed lookup aborts the whole call with `false`; a hit on the
exclusion list vetoes the whole call with `false`; a hit on the inclusion
list or an all-clauses rule match includes with `true`; otherwise continue. -/
def segmentScan (env : Env) (evalClauses : List Clause → Option Target → Bool) :
    List String → Option Target → Bool
  | [], _ => false
  | segmentIdentifier :: rest, target =>
    match env.getSegment segmentIdentifier with
    | none => false
    | some segment =>
      if segmentExcludes segment target then false
      else if segmentIncludes segment target then true
      else if (match segment.rules with
          | some rs => evalClauses rs target
          | none => false) then true
      else segmentScan env evalClauses rest target

/-- The clause evaluator (`evaluateClause`): one boolean condition against a
target.  A nil clause, empty value list, or empty operator fails; for every
operator except segment-match an unresolvable attribute fails; otherwise the
attribute is coerced to text and compared per the operator.  Fuel bounds the
recursion through segment rules that themselves hold segment-match clauses
(unbounded in the source); at fuel zero the segment-match branch is cut off
(and, conservatively, the whole clause yields false). -/
def evaluateClause (env : Env) : Nat → Option Clause → Option Target → Bool
  | 0, _, _ => false
  | fuel + 1, clause, target =>
    match clause with
    | none => false
    | some c =>
      match c.values with
      | [] => false
      | value :: _ =>
        if c.op == "" then false
        else
          let attrValue := getAttrValue target c.attrName
          if c.op != segmentMatchOperator && attrValue == .invalid then false
          else
            let object := attrValueText attrValue
            if c.op == startsWithOperator then strStartsWith object value
            else if c.op == endsWithOperator then strEndsWith object value
            else if c.op == matchOperator then
              (match env.regexMatch value object with
               | some found => found
               | none => false)
            else if c.op == containsOperator then strContains object value
            else if c.op == equalOperator then lowerStr object == lowerStr value
            else if c.op == equalSensitiveOperator then object == value
            else if c.op == inOperator then c.values.any (fun v => v == object)
            else if c.op == gtOperator then strGt object value
            else if c.op == segmentMatchOperator then
              segmentScan env
                (fun cs t => cs.all (fun cl => evaluateClause env fuel (some cl) t))
                c.values target
            else false
termination_by structural fuel _ _ => fuel

/-- The clause-conjunction evaluator (`evaluateClauses`): all clauses must
match (the loop returns false at the first failing clause). -/
def evaluateClauses (env : Env) (fuel : Nat) (clauses : List Clause)
    (target : Option Target) : Bool :=
  clauses.all (fun c => evaluateClause env fuel (some c) target)

/-- The segment resolver (`isTargetIncludedOrExcludedInSegment`). -/
def isTargetIncludedOrExcludedInSegment (env : Env) (fuel : Nat)
    (segmentList : List String) (target : Option Target) : Bool :=
  segmentScan env (evaluateClauses env fuel) segmentList target

/-- One targeting rule matches when all its clauses match (`evaluateRule`). -/
def evaluateRule (env : Env) (fuel : Nat) (servingRule : ServingRule)
    (target : Option Target) : Bool :=
  evaluateClauses env fuel servingRule.clauses target

/-- Ascending-priority order on serving rules, the comparison passed to the
source's `sort.SliceStable` call. -/
def ruleLe (a b : ServingRule) : Prop := a.priority ≤ b.priority

instance : DecidableRel ruleLe := fun a b => by
  unfold ruleLe; exact inferInstance

/-- The stable ascending-priority sort of the rule list (`sort.SliceStable`
with the priority comparison; insertion sort is the stable sort). -/
def sortRules (servingRules : List ServingRule) : List ServingRule :=
  servingRules.insertionSort ruleLe

/-- The scan of the priority-sorted rule list (`evaluateRules`' loop): skip
rules that do not match; for the first match, a present distribution decides
via the bucketer, else a present fixed variation is returned; a matched rule
with neither falls through to the next rule.  No match yields the empty
string. -/
def rulesScan (env : Env) (fuel : Nat) (target : Option Target) :
    List ServingRule → String
  | [] => ""
  | rule :: rest =>
    if !evaluateRule env fuel rule target then rulesScan env fuel target rest
    else
      match rule.serve.distribution with
      | some d => env.evalDistribution (some d) target
      | none =>
        match rule.serve.variation with
        | some v => v
        | none => rulesScan env fuel target rest

/-- The rule resolver (`evaluateRules`): a nil target yields the empty
string; otherwise the rules are stably sorted by ascending priority and
scanned for the first match. -/
def evaluateRules (env : Env) (fuel : Nat) (servingRules : List ServingRule)
    (target : Option Target) : String :=
  match target with
  | none => ""
  | some _ => rulesScan env fuel target (sortRules servingRules)

/-- The scan of the override entries (`evaluateVariationMap`'s loop) for a
non-nil target: an entry serves its variation when the target's identifier
appears (non-empty) in its explicit target list, or when the target is
included via its target-segment list. -/
def variationMapScan (env : Env) (fuel : Nat) (t : Target) :
    List VariationMap → String
  | [] => ""
  | variationMap :: rest =>
    if (match variationMap.targets with
        | some ts => ts.any (fun tm =>
            match tm.identifier with
            | some id => id != "" && id == t.identifier
            | none => false)
        | none => false) then variationMap.variation
    else if (match variationMap.targetSegments with
        | some sids => isTargetIncludedOrExcludedInSegment env fuel sids (some t)
        | none => false) then variationMap.variation
    else variationMapScan env fuel t rest

/-- The override resolver (`evaluateVariationMap`): a nil target yields the
empty string; otherwise the entries are scanned in declaration order. -/
def evaluateVariationMap (env : Env) (fuel : Nat)
    (variationsMap : List VariationMap) (target : Option Target) : String :=
  match target with
  | none => ""
  | some t => variationMapScan env fuel t variationsMap

/-- The override stage of the on branch of `evaluateFlag`: the source's
`if fc.VariationToTargetMap != nil` guard around `evaluateVariationMap` (a
nil map leaves the served identifier empty). -/
def overrideStage (env : Env) (fuel : Nat) (fc : FeatureConfig)
    (target : Option Target) : String :=
  match fc.variationToTargetMap with
  | some m => evaluateVariationMap env fuel m target
  | none => ""

/-- The rule stage of the on branch of `evaluateFlag`: the source's
`fc.Rules != nil` guard around `evaluateRules`. -/
def rulesStage (env : Env) (fuel : Nat) (fc : FeatureConfig)
    (target : Option Target) : String :=
  match fc.rules with
  | some rs => evaluateRules env fuel rs target
  | none => ""

/-- The default-serve distribution stage of the on branch of `evaluateFlag`: the
unguarded `evaluateDistribution(fc.DefaultServe.Distribution, target)`
call. -/
def distributionStage (env : Env) (fc : FeatureConfig)
    (target : Option Target) : String :=
  env.evalDistribution fc.defaultServe.distribution target

/-- The default-serve fixed-variation stage of the on branch of `evaluateFlag`:
the `fc.DefaultServe.Variation != nil` guard around its dereference. -/
def defaultVariationStage (fc : FeatureConfig) : String :=
  match fc.defaultServe.variation with
  | some v => v
  | none => ""

/-- The served-identifier computation of the on branch of `evaluateFlag`: the
source's chain of guarded reassignments of `variation`, each stage consulted
only while the identifier is still empty. -/
def onVariation (env : Env) (fuel : Nat) (fc : FeatureConfig)
    (target : Option Target) : String :=
  let v1 := overrideStage env fuel fc target
  let v2 := if v1 == "" then rulesStage env fuel fc target else v1
  let v3 := if v2 == "" then distributionStage env fc target else v2
  if v3 == "" then defaultVariationStage fc else v3

/-- The flag-level evaluation (`evaluateFlag`): for an on flag the served
identifier is resolved by the on-branch chain; for any other state it is the
off variation.  A non-empty identifier is looked up in the variation list; an
empty one is the flag-evaluation error. -/
def evaluateFlag (env : Env) (fuel : Nat) (fc : FeatureConfig)
    (target : Option Target) : Except EvalErr Variation :=
  let variation :=
    if fc.state == FeatureStateOn then onVariation env fuel fc target
    else fc.offVariation
  if variation != "" then findVariation fc.variations variation
  else .error .evaluationFlag

/-- The loop body of `checkPreRequisite`, parameterized by the recursive
check so the recursion can be tied by fuel: a failed prerequisite-flag lookup
or a failed flag-level evaluation returns satisfied for the whole call at
once (fail-open early return, skipping the remaining prerequisites); an
evaluated variation outside the allowed set, or a failing recursive check of
the prerequisite flag, fails the whole call; otherwise continue. -/
def prereqScan (env : Env) (fuel : Nat) (target : Option Target)
    (checkRec : FeatureConfig → Bool) : List Prerequisite → Bool
  | [] => true
  | pre :: rest =>
    match env.getFlag pre.feature with
    | none => true
    | some prereqFeatureConfig =>
      match evaluateFlag env fuel prereqFeatureConfig target with
      | .error _ => true
      | .ok prereqEvaluatedVariation =>
        if !containsVal pre.variations prereqEvaluatedVariation.identifier then false
        else if !checkRec prereqFeatureConfig then false
        else prereqScan env fuel target checkRec rest

/-- The prerequisite resolver (`checkPreRequisite`): depth-first over the
prerequisite graph; fuel bounds the recursion depth (unbounded in the
source), and an exhausted fuel reports satisfied, matching the fail-open
flavor of the source's degenerate branches.  The flag-level evaluation of a
prerequisite runs at the caller's fuel. -/
def checkPreRequisite (env : Env) (target : Option Target) :
    Nat → FeatureConfig → Bool
  | 0, _ => true
  | fuel + 1, fc =>
    match fc.prerequisites with
    | none => true
    | some prerequisites =>
      prereqScan env (fuel + 1) target (checkPreRequisite env target fuel) prerequisites
termination_by structural fuel _ => fuel

/-- The orchestrator (`evaluate`): flag lookup, kind check, prerequisite
check (serving the off variation when unsatisfied), then flag-level
evaluation.  The post-evaluation callback is observational and not
modelled. -/
def evaluate (env : Env) (fuel : Nat) (identifier : String)
    (target : Option Target) (kind : String) : Except EvalErr Variation :=
  match env.getFlag identifier with
  | none => .error .flagNotFound
  | some flag =>
    if flag.kind != kind then .error .flagKindMismatch
    else
      match flag.prerequisites with
      | some _ =>
        if !checkPreRequisite env target fuel flag then
          findVariation flag.variations flag.offVariation
        else evaluateFlag env fuel flag target
      | none => evaluateFlag env fuel flag target

/-- Decimal digit test on a character. -/
def isDigitChar (c : Char) : Bool := 48 ≤ c.toNat && c.toNat ≤ 57

/-- Accumulating decimal parse of a digit run; any non-digit fails. -/
def charsToNatAux : List Char → Nat → Option Nat
  | [], acc => some acc
  | c :: rest, acc =>
    if isDigitChar c then charsToNatAux rest (acc * 10 + (c.toNat - 48))
    else none

/-- Decimal parse of a non-empty digit run. -/
def parseDigits : List Char → Option Nat
  | [] => none
  | cs => charsToNatAux cs 0

/-- Go's `strconv.Atoi`: optional sign followed by decimal digits (the
64-bit range check is not modelled). -/
def atoi (s : String) : Option Int :=
  match s.data with
  | [] => none
  | '+' :: rest => (parseDigits rest).map Int.ofNat
  | '-' :: rest => (parseDigits rest).map (fun n => -(Int.ofNat n))
  | cs => (parseDigits cs).map Int.ofNat

/-- Typed accessor `BoolVariation`: any evaluation error absorbs into the
caller-supplied default; a value decodes to true exactly when it lowercases
to "true". -/
def BoolVariation (env : Env) (fuel : Nat) (identifier : String)
    (target : Option Target) (defaultValue : Bool) : Bool :=
  match evaluate env fuel identifier target "boolean" with
  | .error _ => defaultValue
  | .ok variation => lowerStr variation.value == "true"

/-- Typed accessor `StringVariation`: any evaluation error absorbs into the
caller-supplied default. -/
def StringVariation (env : Env) (fuel : Nat) (identifier : String)
    (target : Option Target) (defaultValue : String) : String :=
  match evaluate env fuel identifier target "string" with
  | .error _ => defaultValue
  | .ok variation => variation.value

/-- Typed accessor `IntVariation`: any evaluation error, or a value that
fails integer decoding, absorbs into the caller-supplied default. -/
def IntVariation (env : Env) (fuel : Nat) (identifier : String)
    (target : Option Target) (defaultValue : Int) : Int :=
  match evaluate env fuel identifier target "int" with
  | .error _ => defaultValue
  | .ok variation =>
    match atoi variation.value with
    | some val => val
    | none => defaultValue

/-- Typed accessor `NumberVariation` (numbers share the int wire kind): any
evaluation error, or a value that fails float decoding, absorbs into the
caller-supplied default. -/
def NumberVariation (env : Env) (fuel : Nat) (identifier : String)
    (target : Option Target) (defaultValue : Float) : Float :=
  match evaluate env fuel identifier target "int" with
  | .error _ => defaultValue
  | .ok variation =>
    match env.parseFloat variation.value with
    | some val => val
    | none => defaultValue

/-- Typed accessor `JSONVariation`: any evaluation error, or a value that
fails JSON decoding, absorbs into the caller-supplied default. -/
def JSONVariation (env : Env) (fuel : Nat) (identifier : String)
    (target : Option Target) (defaultValue : List (String × JsonValue)) :
    List (String × JsonValue) :=
  match evaluate env fuel identifier target "json" with
  | .error _ => defaultValue
  | .ok variation =>
    match env.jsonParse variation.value with
    | some val => val
    | none => defaultValue

/-- First non-empty string of a list (empty when all are empty). -/
def firstNonEmpty : List String → String
  | [] => ""
  | s :: rest => if s == "" then firstNonEmpty rest else s

/-- The claim-level reading of the on-state resolution: try the override
resolver, the rule resolver, the default-serve distribution and the
default-serve fixed variation in that order; the first non-empty identifier
is served (looked up in the variation list), and an all-empty chain is the
flag-evaluation error. -/
def precedenceResult (env : Env) (fuel : Nat) (fc : FeatureConfig)
    (target : Option Target) : Except EvalErr Variation :=
  let served := firstNonEmpty
    [overrideStage env fuel fc target,
     rulesStage env fuel fc target,
     distributionStage env fc target,
     defaultVariationStage fc]
  if served == "" then .error .evaluationFlag
  else findVariation fc.variations served

theorem onVariation_eq_firstNonEmpty (env : Env) (fuel : Nat)
    (fc : FeatureConfig) (target : Option Target) :
    onVariation env fuel fc target = firstNonEmpty
      [overrideStage env fuel fc target,
       rulesStage env fuel fc target,
       distributionStage env fc target,
       defaultVariationStage fc] := by
  unfold onVariation firstNonEmpty
  by_cases h1 : overrideStage env fuel fc target = "" <;>
    by_cases h2 : rulesStage env fuel fc target = "" <;>
    by_cases h3 : distributionStage env fc target = "" <;>
    by_cases h4 : defaultVariationStage fc = "" <;>
    simp [h1, h2, h3, h4, firstNonEmpty]

/-- Fixture builder: an environment serving the given association lists of
flags and segments, with inert external collaborators. -/
def mkEnv (flags : List (String × FeatureConfig))
    (segments : List (String × Segment)) : Env :=
  { getFlag := fun id => (flags.find? (fun p => p.fst == id)).map (fun p => p.snd),
    getSegment := fun id => (segments.find? (fun p => p.fst == id)).map (fun p => p.snd),
    evalDistribution := fun _ _ => "",
    regexMatch := fun _ _ => some false,
    parseFloat := fun _ => none,
    jsonParse := fun _ => none }

/-- C1: for every flag with state on, evaluation resolves the served
variation identifier by trying, in order, the override resolver
(variation-to-target map), the rule resolver, the default-serve distribution
and the default-serve fixed variation, and the first non-empty result is the
one served (looked up in the flag's variation list). -/
theorem c1_on_state_precedence_chain (env : Env) (fuel : Nat)
    (fc : FeatureConfig) (target : Option Target)
    (hon : fc.state = FeatureStateOn) :
    evaluateFlag env fuel fc target = precedenceResult env fuel fc target := by
  unfold evaluateFlag precedenceResult
  rw [hon, onVariation_eq_firstNonEmpty]
  simp only [beq_self_eq_true, if_true]
  by_cases hs : firstNonEmpty
      [overrideStage env fuel fc target, rulesStage env fuel fc target,
       distributionStage env fc target, defaultVariationStage fc] = "" <;>
    simp [hs, bne]

/-- Fixture for the C1 witness: an on flag served by its default-serve fixed
variation. -/
def fcOn1 : FeatureConfig :=
  ⟨"fw1", "boolean", "on", [⟨"dv", "true"⟩], "xoff", ⟨none, some "dv"⟩,
   none, none, none⟩

/-- Fixture environment for the C1 witness. -/
def envW1 : Env := mkEnv [("fw1", fcOn1)] []

theorem c1_on_state_precedence_chain_witness :
    evaluateFlag envW1 1 fcOn1 none = precedenceResult envW1 1 fcOn1 none :=
  c1_on_state_precedence_chain envW1 1 fcOn1 none rfl

/-- C2: for every flag with state off (and a proper, non-empty off-variation
identifier), evaluation resolves to the flag's off variation regardless of
its rules, overrides and prerequisites: whether the prerequisite check
passes or fails, the result is the off variation looked up in the variation
list. -/
theorem c2_off_state_serves_off_variation (env : Env) (fuel : Nat)
    (identifier : String) (target : Option Target) (kind : String)
    (flag : FeatureConfig)
    (hlook : env.getFlag identifier = some flag)
    (hkind : flag.kind = kind)
    (hoff : flag.state = FeatureStateOff)
    (hov : flag.offVariation ≠ "") :
    evaluate env fuel identifier target kind =
      findVariation flag.variations flag.offVariation := by
  unfold evaluate
  rw [hlook]
  simp only [hkind, bne_self_eq_false, Bool.false_eq_true, if_false]
  have hflag : evaluateFlag env fuel flag target =
      findVariation flag.variations flag.offVariation := by
    unfold evaluateFlag
    rw [hoff]
    simp [FeatureStateOff, FeatureStateOn, bne, hov]
  cases hp : flag.prerequisites with
  | none => exact hflag
  | some ps =>
    cases hchk : checkPreRequisite env target fuel flag <;> simp [hchk, hflag]

/-- Fixture for the C2 witness: an off flag full of on-state machinery that
must all be ignored. -/
def fcOff2 : FeatureConfig :=
  ⟨"fw2", "boolean", "off", [⟨"von", "true"⟩, ⟨"voff", "false"⟩], "voff",
   ⟨none, some "von"⟩,
   some [⟨1, [], ⟨none, some "von"⟩⟩],
   some [⟨"von", some [⟨some "t1"⟩], none⟩],
   none⟩

/-- Fixture environment for the C2 witness. -/
def envW2 : Env := mkEnv [("fw2", fcOff2)] []

theorem c2_off_state_serves_off_variation_witness :
    evaluate envW2 1 "fw2" none "boolean" =
      findVariation fcOff2.variations fcOff2.offVariation :=
  c2_off_state_serves_off_variation envW2 1 "fw2" none "boolean" fcOff2
    rfl rfl rfl (by decide)

/-- Fixture for the C2 counterexample: an off flag whose off-variation
identifier is the empty string. -/
def fcC2x : FeatureConfig :=
  ⟨"fx", "boolean", "off", [⟨"a", "true"⟩], "", ⟨none, none⟩, none, none, none⟩

/-- Fixture environment for the C2 counterexample. -/
def envC2x : Env := mkEnv [("fx", fcC2x)] []

/-- C2 counterexample: an off flag with an empty off-variation identifier is
not resolved to its off variation — evaluation reports the flag-evaluation
error instead, so the claim as universally stated fails at this input. -/
theorem c2_counterexample_empty_off_variation :
    fcC2x.state = FeatureStateOff ∧
    evaluate envC2x 1 "fx" none "boolean" = .error .evaluationFlag :=
  ⟨rfl, rfl⟩

/-- Fixture environment for the C7 theorem. -/
def envC7 : Env := mkEnv [] []

/-- Fixture target for the C7 theorem: its `height` attribute resolves to a
value of a kind outside int/bool/string (a float, say), whose generic
textual rendering is "1.5". -/
def targetC7 : Target := ⟨"t1", "T One", false, [("height", .otherVal "1.5")]⟩

/-- Fixture clause for the C7 theorem: case-sensitive equality of the
`height` attribute against "1.5". -/
def clauseC7 : Clause := ⟨"height", "equal_sensitive", ["1.5"]⟩

/-- C7: the clause evaluator coerces int attribute values to decimal text and
bool values to "true"/"false", and passes string values through; but for
every other attribute value kind the source formats the still-empty `object`
accumulator instead of the value, so the fallback coercion always yields the
empty string — not a generic textual representation of the value as the
claim (and the in-code comment) intends.  Concretely, a clause comparing a
float-valued attribute against its own textual rendering fails to match. -/
theorem c7_fallback_coercion_is_empty :
    attrValueText (.intVal 7) = "7" ∧
    attrValueText (.intVal (-3)) = "-3" ∧
    attrValueText (.boolVal true) = "true" ∧
    attrValueText (.boolVal false) = "false" ∧
    attrValueText (.strVal "abc") = "abc" ∧
    attrValueText (.otherVal "1.5") = "" ∧
    attrValueTextSpec (.otherVal "1.5") = "1.5" ∧
    evaluateClause envC7 1 (some clauseC7) (some targetC7) = false := by
  refine ⟨rfl, by decide, rfl, rfl, rfl, rfl, rfl, by decide⟩

/-- Fixture target for the C6 concrete instance. -/
def targetC6 : Target := ⟨"t1", "T One", false, []⟩

/-- Fixture environment for the C6 concrete instance. -/
def envC6 : Env := mkEnv [] []

/-- Fixture rule of priority 3 whose clause does not match `targetC6`. -/
def ruleP3 : ServingRule :=
  ⟨3, [⟨"identifier", "equal_sensitive", ["zz"]⟩], ⟨none, some "A"⟩⟩

/-- Fixture rule of priority 1 whose clause matches `targetC6`. -/
def ruleP1 : ServingRule :=
  ⟨1, [⟨"identifier", "equal_sensitive", ["t1"]⟩], ⟨none, some "B"⟩⟩

/-- Fixture rule of priority 2 whose clause matches `targetC6`. -/
def ruleP2 : ServingRule :=
  ⟨2, [⟨"identifier", "equal_sensitive", ["t1"]⟩], ⟨none, some "C"⟩⟩

/-- C6: the rule resolver orders rules by ascending priority with a stable
sort — the sorted list is sorted by the priority order, is a permutation of
the input, and preserves the relative order of equal-priority rules — and
scans them first-match-first; in particular, for rules with priorities
[3, 1, 2] whose clauses match [false, true, true], the priority-1 rule's
outcome "B" is selected. -/
theorem c6_rule_priority_stable_sort :
    (∀ rules : List ServingRule, (sortRules rules).Sorted ruleLe) ∧
    (∀ rules : List ServingRule, List.Perm (sortRules rules) rules) ∧
    (∀ (a b : ServingRule) (rules : List ServingRule),
      a.priority = b.priority → List.Sublist [a, b] rules →
      List.Sublist [a, b] (sortRules rules)) ∧
    evaluateRules envC6 1 [ruleP3, ruleP1, ruleP2] (some targetC6) = "B" := by
  refine ⟨?_, ?_, ?_, by decide⟩
  · intro rules
    haveI : IsTotal ServingRule ruleLe := ⟨fun a b => Int.le_total a.priority b.priority⟩
    haveI : IsTrans ServingRule ruleLe := ⟨fun a b c h1 h2 => le_trans h1 h2⟩
    exact List.sorted_insertionSort ruleLe rules
  · intro rules
    exact List.perm_insertionSort ruleLe rules
  · intro a b rules hab hsub
    refine List.pair_sublist_insertionSort ?_ hsub
    show a.priority ≤ b.priority
    rw [hab]

/-- Fixture rule (priority 2, serving S1) for the C6 witness. -/
def ruleS1 : ServingRule :=
  ⟨2, [], ⟨none, some "S1"⟩⟩

/-- Fixture rule (priority 2, serving S2) for the C6 witness. -/
def ruleS2 : ServingRule :=
  ⟨2, [], ⟨none, some "S2"⟩⟩

theorem c6_rule_priority_stable_sort_witness :
    List.Sublist [ruleS1, ruleS2] (sortRules [ruleS1, ruleS2]) :=
  c6_rule_priority_stable_sort.2.2.1 ruleS1 ruleS2 [ruleS1, ruleS2] rfl
    (List.Sublist.refl _)

/-- Whether the segment declares rules and all their clauses match the
target (the `rules != nil && e.evaluateClauses(...)` condition). -/
def segmentRulesMatch (env : Env) (fuel : Nat) (segment : Segment)
    (target : Option Target) : Bool :=
  match segment.rules with
  | some rs => evaluateClauses env fuel rs target
  | none => false

/-- Whether the segment scan, on reaching this identifier, neither vetoes nor
includes and so continues: the lookup succeeds and none of the exclusion,
inclusion and rule conditions hit. -/
def segmentFallsThrough (env : Env) (fuel : Nat) (target : Option Target)
    (sid : String) : Bool :=
  match env.getSegment sid with
  | none => false
  | some seg =>
    !segmentExcludes seg target && !segmentIncludes seg target &&
    !segmentRulesMatch env fuel seg target

theorem segmentScan_cons_fallsThrough (env : Env) (fuel : Nat)
    (target : Option Target) (sid : String) (rest : List String)
    (h : segmentFallsThrough env fuel target sid = true) :
    isTargetIncludedOrExcludedInSegment env fuel (sid :: rest) target =
      isTargetIncludedOrExcludedInSegment env fuel rest target := by
  unfold segmentFallsThrough at h
  show segmentScan env (evaluateClauses env fuel) (sid :: rest) target =
    segmentScan env (evaluateClauses env fuel) rest target
  rw [segmentScan]
  cases hseg : env.getSegment sid with
  | none => rw [hseg] at h; exact absurd h (by simp)
  | some seg =>
    rw [hseg] at h
    simp only [Bool.and_eq_true, Bool.not_eq_true'] at h
    obtain ⟨⟨h1, h2⟩, h3⟩ := h
    simp only [segmentRulesMatch] at h3
    simp [h1, h2, h3]

theorem segmentScan_append_fallsThrough (env : Env) (fuel : Nat)
    (target : Option Target) (l1 l2 : List String)
    (h : ∀ s ∈ l1, segmentFallsThrough env fuel target s = true) :
    isTargetIncludedOrExcludedInSegment env fuel (l1 ++ l2) target =
      isTargetIncludedOrExcludedInSegment env fuel l2 target := by
  induction l1 with
  | nil => rfl
  | cons s rest ih =>
    rw [List.cons_append,
      segmentScan_cons_fallsThrough env fuel target s (rest ++ l2) (h s (.head _)),
      ih (fun x hx => h x (.tail _ hx))]

/-- C5: over a list of segment identifiers, membership is an OR — once the
scan reaches an identifier (all earlier ones fell through), an inclusion-list
hit or a full rule match includes the target, no matter what follows; but a
segment whose exclusion list holds the target makes the whole call false
immediately, regardless of the remaining identifiers; and in particular a
target in both the excluded and included lists of one segment is not
included (exclusion wins). -/
theorem c5_segment_exclusion_veto :
    (∀ (env : Env) (fuel : Nat) (target : Option Target) (l1 l2 : List String)
       (sid : String) (seg : Segment),
      (∀ s ∈ l1, segmentFallsThrough env fuel target s = true) →
      env.getSegment sid = some seg →
      segmentExcludes seg target = true →
      isTargetIncludedOrExcludedInSegment env fuel (l1 ++ sid :: l2) target = false) ∧
    (∀ (env : Env) (fuel : Nat) (target : Option Target) (l1 l2 : List String)
       (sid : String) (seg : Segment),
      (∀ s ∈ l1, segmentFallsThrough env fuel target s = true) →
      env.getSegment sid = some seg →
      segmentExcludes seg target = false →
      (segmentIncludes seg target = true ∨ segmentRulesMatch env fuel seg target = true) →
      isTargetIncludedOrExcludedInSegment env fuel (l1 ++ sid :: l2) target = true) ∧
    (∀ (env : Env) (fuel : Nat) (target : Option Target) (l1 l2 : List String)
       (sid : String) (seg : Segment),
      (∀ s ∈ l1, segmentFallsThrough env fuel target s = true) →
      env.getSegment sid = some seg →
      segmentExcludes seg target = true →
      segmentIncludes seg target = true →
      isTargetIncludedOrExcludedInSegment env fuel (l1 ++ sid :: l2) target = false) := by
  have veto : ∀ (env : Env) (fuel : Nat) (target : Option Target) (l1 l2 : List String)
      (sid : String) (seg : Segment),
      (∀ s ∈ l1, segmentFallsThrough env fuel target s = true) →
      env.getSegment sid = some seg →
      segmentExcludes seg target = true →
      isTargetIncludedOrExcludedInSegment env fuel (l1 ++ sid :: l2) target = false := by
    intro env fuel target l1 l2 sid seg h hseg hexc
    rw [segmentScan_append_fallsThrough env fuel target l1 (sid :: l2) h]
    show segmentScan env (evaluateClauses env fuel) (sid :: l2) target = false
    rw [segmentScan]
    simp [hseg, hexc]
  refine ⟨veto, ?_, fun env fuel target l1 l2 sid seg h hseg hexc _ =>
    veto env fuel target l1 l2 sid seg h hseg hexc⟩
  intro env fuel target l1 l2 sid seg h hseg hexc hin
  rw [segmentScan_append_fallsThrough env fuel target l1 (sid :: l2) h]
  show segmentScan env (evaluateClauses env fuel) (sid :: l2) target = true
  rw [segmentScan]
  cases hin with
  | inl hi => simp [hseg, hexc, hi]
  | inr hr =>
    simp only [segmentRulesMatch] at hr
    simp [hseg, hexc, hr]

/-- Fixture target for the C5 witness. -/
def tC5 : Target := ⟨"tc5", "C Five", false, []⟩

/-- Fixture segment the C5 witness scans first: no lists, no rules. -/
def segA : Segment := ⟨"sA", "A", none, none, none⟩

/-- Fixture segment holding `tC5` in both its excluded and included lists. -/
def segXc : Segment := ⟨"sX", "X", some [tC5], some [tC5], none⟩

/-- Fixture segment holding `tC5` in its included list, scanned after the
excluding segment. -/
def segB : Segment := ⟨"sB", "B", none, some [tC5], none⟩

/-- Fixture environment for the C5 witness. -/
def envC5 : Env := mkEnv [] [("sA", segA), ("sX", segXc), ("sB", segB)]

theorem c5_segment_exclusion_veto_witness :
    isTargetIncludedOrExcludedInSegment envC5 1 (["sA"] ++ "sX" :: ["sB"])
      (some tC5) = false :=
  c5_segment_exclusion_veto.2.2 envC5 1 (some tC5) ["sA"] ["sB"] "sX" segXc
    (by decide) rfl (by decide) (by decide)

/-- C4: the typed accessors never propagate an error — on flag lookup
failure, on kind mismatch, on any error of the low-level evaluation
(including a missing resolved variation), and on value decode failure, each
accessor returns the caller-supplied default value. -/
theorem c4_typed_accessors_absorb_errors (env : Env) (fuel : Nat)
    (identifier : String) (target : Option Target)
    (dB : Bool) (dS : String) (dI : Int) (dN : Float)
    (dJ : List (String × JsonValue)) :
    (env.getFlag identifier = none →
      BoolVariation env fuel identifier target dB = dB ∧
      StringVariation env fuel identifier target dS = dS ∧
      IntVariation env fuel identifier target dI = dI ∧
      NumberVariation env fuel identifier target dN = dN ∧
      JSONVariation env fuel identifier target dJ = dJ) ∧
    (∀ flag, env.getFlag identifier = some flag →
      (flag.kind ≠ "boolean" → BoolVariation env fuel identifier target dB = dB) ∧
      (flag.kind ≠ "string" → StringVariation env fuel identifier target dS = dS) ∧
      (flag.kind ≠ "int" →
        IntVariation env fuel identifier target dI = dI ∧
        NumberVariation env fuel identifier target dN = dN) ∧
      (flag.kind ≠ "json" → JSONVariation env fuel identifier target dJ = dJ)) ∧
    (∀ e, evaluate env fuel identifier target "boolean" = .error e →
      BoolVariation env fuel identifier target dB = dB) ∧
    (∀ e, evaluate env fuel identifier target "string" = .error e →
      StringVariation env fuel identifier target dS = dS) ∧
    (∀ e, evaluate env fuel identifier target "int" = .error e →
      IntVariation env fuel identifier target dI = dI ∧
      NumberVariation env fuel identifier target dN = dN) ∧
    (∀ e, evaluate env fuel identifier target "json" = .error e →
      JSONVariation env fuel identifier target dJ = dJ) ∧
    (∀ v, evaluate env fuel identifier target "int" = .ok v →
      atoi v.value = none → IntVariation env fuel identifier target dI = dI) ∧
    (∀ v, evaluate env fuel identifier target "int" = .ok v →
      env.parseFloat v.value = none →
      NumberVariation env fuel identifier target dN = dN) ∧
    (∀ v, evaluate env fuel identifier target "json" = .ok v →
      env.jsonParse v.value = none →
      JSONVariation env fuel identifier target dJ = dJ) := by
  have hlookup : ∀ kind, env.getFlag identifier = none →
      evaluate env fuel identifier target kind = .error .flagNotFound := by
    intro kind h
    unfold evaluate
    rw [h]
  have hkind : ∀ flag kind, env.getFlag identifier = some flag →
      flag.kind ≠ kind →
      evaluate env fuel identifier target kind = .error .flagKindMismatch := by
    intro flag kind h hk
    unfold evaluate
    rw [h]
    simp [hk, bne]
  refine ⟨?_, ?_, ?_, ?_, ?_, ?_, ?_, ?_, ?_⟩
  · intro h
    refine ⟨?_, ?_, ?_, ?_, ?_⟩ <;>
      simp [BoolVariation, StringVariation, IntVariation, NumberVariation,
        JSONVariation, hlookup _ h]
  · intro flag h
    refine ⟨fun hk => ?_, fun hk => ?_, fun hk => ⟨?_, ?_⟩, fun hk => ?_⟩ <;>
      simp [BoolVariation, StringVariation, IntVariation, NumberVariation,
        JSONVariation, hkind flag _ h hk]
  · intro e h; simp [BoolVariation, h]
  · intro e h; simp [StringVariation, h]
  · intro e h; exact ⟨by simp [IntVariation, h], by simp [NumberVariation, h]⟩
  · intro e h; simp [JSONVariation, h]
  · intro v h hdec; simp [IntVariation, h, hdec]
  · intro v h hdec; simp [NumberVariation, h, hdec]
  · intro v h hdec; simp [JSONVariation, h, hdec]

/-- Fixture boolean-kind flag for the C4 witness. -/
def fcBoolKind : FeatureConfig :=
  ⟨"fb", "boolean", "on", [⟨"a", "true"⟩], "a", ⟨none, some "a"⟩, none, none, none⟩

/-- Fixture environment for the C4 witness. -/
def envC4 : Env := mkEnv [("fb", fcBoolKind)] []

theorem c4_typed_accessors_absorb_errors_witness :
    StringVariation envC4 1 "fb" none "dflt" = "dflt" ∧
    BoolVariation envC4 1 "nope" none true = true ∧
    StringVariation envC4 1 "nope" none "d" = "d" ∧
    IntVariation envC4 1 "nope" none 7 = 7 ∧
    NumberVariation envC4 1 "nope" none 2.5 = 2.5 ∧
    JSONVariation envC4 1 "nope" none [] = [] :=
  ⟨((c4_typed_accessors_absorb_errors envC4 1 "fb" none true "dflt" 7 2.5
      []).2.1 fcBoolKind rfl).2.1 (by decide),
   ((c4_typed_accessors_absorb_errors envC4 1 "nope" none true "d" 7 2.5
      []).1 rfl).1,
   ((c4_typed_accessors_absorb_errors envC4 1 "nope" none true "d" 7 2.5
      []).1 rfl).2.1,
   ((c4_typed_accessors_absorb_errors envC4 1 "nope" none true "d" 7 2.5
      []).1 rfl).2.2.1,
   ((c4_typed_accessors_absorb_errors envC4 1 "nope" none true "d" 7 2.5
      []).1 rfl).2.2.2.1,
   ((c4_typed_accessors_absorb_errors envC4 1 "nope" none true "d" 7 2.5
      []).1 rfl).2.2.2.2⟩

/-- Fixture prerequisite on a flag absent from the C8 environment. -/
def preMissing : Prerequisite := ⟨"missing", ["on"]⟩

/-- Fixture prerequisite on flag p2, allowing only variation "on". -/
def preP2 : Prerequisite := ⟨"p2", ["on"]⟩

/-- Fixture prerequisite flag p2, which flag-level-evaluates to "off" and so
does not satisfy `preP2`. -/
def fcP2 : FeatureConfig :=
  ⟨"p2", "boolean", "on", [⟨"on", "true"⟩, ⟨"off", "false"⟩], "off",
   ⟨none, some "off"⟩, none, none, none⟩

/-- Fixture parent flag whose prerequisite list is the missing flag followed
by the unsatisfied p2. -/
def fcParent : FeatureConfig :=
  ⟨"parent", "boolean", "on", [⟨"on", "true"⟩, ⟨"off", "false"⟩], "off",
   ⟨none, some "on"⟩, none, none, some [preMissing, preP2]⟩

/-- Fixture environment for C8: the parent and p2 exist, "missing" does
not. -/
def envC8 : Env := mkEnv [("parent", fcParent), ("p2", fcP2)] []

/-- C8 counterexample: the parent's first prerequisite fails to look up and
the whole check reports satisfied, even though the remaining prerequisite
(p2, checked alone in the second conjunct) is unsatisfied — so the check
does not continue with the remaining prerequisites as the claim states. -/
theorem c8_counterexample_lookup_failure_skips_rest :
    checkPreRequisite envC8 none 3 fcParent = true ∧
    prereqScan envC8 3 none (checkPreRequisite envC8 none 2) [preP2] = false :=
  ⟨rfl, rfl⟩

/-- C8 (amended): when the lookup of a prerequisite flag fails, the entire
prerequisite check immediately reports satisfied (fail-open), returning
without examining the remaining prerequisites — stated for a flag whose
prerequisite list starts at the failing entry, and for the scan reaching the
failing entry at any position (the tail is arbitrary and never consulted). -/
theorem c8_prereq_lookup_failure_fail_open (env : Env) (fuel : Nat)
    (target : Option Target) (chk : FeatureConfig → Bool)
    (fc : FeatureConfig) (pre : Prerequisite) (rest : List Prerequisite)
    (hmiss : env.getFlag pre.feature = none) :
    (fc.prerequisites = some (pre :: rest) →
      checkPreRequisite env target (fuel + 1) fc = true) ∧
    prereqScan env fuel target chk (pre :: rest) = true := by
  have hscan : ∀ (fuel' : Nat) (chk' : FeatureConfig → Bool),
      prereqScan env fuel' target chk' (pre :: rest) = true := by
    intro fuel' chk'
    rw [prereqScan, hmiss]
  refine ⟨fun hps => ?_, hscan fuel chk⟩
  unfold checkPreRequisite
  rw [hps]
  exact hscan (fuel + 1) _

theorem c8_prereq_lookup_failure_fail_open_witness :
    checkPreRequisite envC8 none 3 fcParent = true :=
  (c8_prereq_lookup_failure_fail_open envC8 2 none
      (checkPreRequisite envC8 none 2) fcParent preMissing [preP2] rfl).1 rfl

/-- Modelled from the claim's words (C3), for comparison with the source's
`checkPreRequisite`: the scan of the prerequisite list where the allowed-set
check is made against the result of the full evaluation pipeline of the
prerequisite flag (supplied as `evalFull`), an evaluation failure fails the
check, and there is no separate recursion — the prerequisite flag's own
prerequisites act only through their effect on its served variation. -/
def prereqScanFull (env : Env) (target : Option Target)
    (evalFull : FeatureConfig → Except EvalErr Variation) :
    List Prerequisite → Bool
  | [] => true
  | pre :: rest =>
    match env.getFlag pre.feature with
    | none => true
    | some pfc =>
      match evalFull pfc with
      | .error _ => false
      | .ok v =>
        if containsVal pre.variations v.identifier then
          prereqScanFull env target evalFull rest
        else false

/-- Modelled from the claim's words (C3): prerequisite checking in which
each prerequisite flag is fully evaluated — its own prerequisites, when
unsatisfied, force its off variation — and that served variation is tested
against the allowed set. -/
def checkPreRequisiteFull (env : Env) (target : Option Target) :
    Nat → FeatureConfig → Bool
  | 0, _ => true
  | fuel + 1, fc =>
    match fc.prerequisites with
    | none => true
    | some ps =>
      prereqScanFull env target
        (fun pfc =>
          match pfc.prerequisites with
          | some _ =>
            if !checkPreRequisiteFull env target fuel pfc then
              findVariation pfc.variations pfc.offVariation
            else evaluateFlag env fuel pfc target
          | none => evaluateFlag env fuel pfc target)
        ps
termination_by structural fuel _ => fuel

/-- Fixture flag Q, which flag-level-evaluates to "no". -/
def fcQ : FeatureConfig :=
  ⟨"Q", "boolean", "on", [⟨"no", "false"⟩, ⟨"yes", "true"⟩], "no",
   ⟨none, some "no"⟩, none, none, none⟩

/-- Fixture prerequisite on Q allowing only "yes" (unsatisfied). -/
def preQ : Prerequisite := ⟨"Q", ["yes"]⟩

/-- Fixture flag P: flag-level evaluation serves "on_p", but its own
prerequisite (Q) is unsatisfied, so a full evaluation would serve its off
variation "off_p". -/
def fcP : FeatureConfig :=
  ⟨"P", "boolean", "on", [⟨"on_p", "true"⟩, ⟨"off_p", "false"⟩], "off_p",
   ⟨none, some "on_p"⟩, none, none, some [preQ]⟩

/-- Fixture prerequisite on P allowing only "off_p". -/
def preP : Prerequisite := ⟨"P", ["off_p"]⟩

/-- Fixture flag F whose single prerequisite is `preP`. -/
def fcF : FeatureConfig :=
  ⟨"F", "boolean", "on", [⟨"on_f", "true"⟩, ⟨"off_f", "false"⟩], "off_f",
   ⟨none, some "on_f"⟩, none, none, some [preP]⟩

/-- Fixture environment for C3. -/
def envC3 : Env := mkEnv [("F", fcF), ("P", fcP), ("Q", fcQ)] []

/-- C3 counterexample: under the claim's reading (full evaluation pipeline,
prerequisites included, decides the served variation) F's prerequisite is
satisfied — P's own prerequisite fails, forcing P to "off_p", which is in
the allowed set — but the source's check is false, because it tests the
flag-level evaluation of P ("on_p", not allowed) and recurses separately. -/
theorem c3_counterexample_full_pipeline :
    checkPreRequisiteFull envC3 none 3 fcF = true ∧
    checkPreRequisite envC3 none 3 fcF = false :=
  ⟨rfl, rfl⟩

theorem prereqScan_eq_all (env : Env) (fuel : Nat) (target : Option Target)
    (chk : FeatureConfig → Bool) (ps : List Prerequisite)
    (hok : ∀ p ∈ ps, ∃ pfc v, env.getFlag p.feature = some pfc ∧
      evaluateFlag env fuel pfc target = .ok v) :
    prereqScan env fuel target chk ps =
      ps.all (fun p =>
        match env.getFlag p.feature with
        | some pfc =>
          match evaluateFlag env fuel pfc target with
          | .ok v => containsVal p.variations v.identifier && chk pfc
          | .error _ => true
        | none => true) := by
  induction ps with
  | nil => rfl
  | cons p rest ih =>
    obtain ⟨pfc, v, hpfc, hv⟩ := hok p (.head _)
    rw [prereqScan, List.all_cons]
    simp only [hpfc, hv]
    by_cases hc : containsVal p.variations v.identifier <;>
      by_cases hchk : chk pfc <;>
      simp [hc, hchk, ih (fun x hx => hok x (.tail _ hx))]

/-- C3 (amended): when every prerequisite of the flag looks up and
flag-level-evaluates successfully, the check is the conjunction, over the
prerequisite list, of the allowed-set test on the variation served by the
prerequisite flag's flag-level evaluation — which ignores the prerequisite
flag's own prerequisites — together with a separate recursive check of those
prerequisites; the full-pipeline reading of the claim is refuted by the
counterexample. -/
theorem c3_prereq_variation_check_ignores_own_prereqs (env : Env) (fuel : Nat)
    (target : Option Target) (fc : FeatureConfig) (ps : List Prerequisite)
    (hps : fc.prerequisites = some ps)
    (hok : ∀ p ∈ ps, ∃ pfc v, env.getFlag p.feature = some pfc ∧
      evaluateFlag env (fuel + 1) pfc target = .ok v) :
    checkPreRequisite env target (fuel + 1) fc =
      ps.all (fun p =>
        match env.getFlag p.feature with
        | some pfc =>
          match evaluateFlag env (fuel + 1) pfc target with
          | .ok v => containsVal p.variations v.identifier &&
              checkPreRequisite env target fuel pfc
          | .error _ => true
        | none => true) := by
  have hstep : checkPreRequisite env target (fuel + 1) fc =
      prereqScan env (fuel + 1) target (checkPreRequisite env target fuel) ps := by
    conv_lhs => rw [checkPreRequisite]
    rw [hps]
  rw [hstep]
  exact prereqScan_eq_all env (fuel + 1) target
    (checkPreRequisite env target fuel) ps hok

theorem c3_prereq_variation_check_ignores_own_prereqs_witness :
    checkPreRequisite envC3 none 3 fcF =
      [preP].all (fun p =>
        match envC3.getFlag p.feature with
        | some pfc =>
          match evaluateFlag envC3 3 pfc none with
          | .ok v => containsVal p.variations v.identifier &&
              checkPreRequisite envC3 none 2 pfc
          | .error _ => true
        | none => true) :=
  c3_prereq_variation_check_ignores_own_prereqs envC3 2 none fcF [preP] rfl
    (by
      intro p hp
      cases hp with
      | head => exact ⟨fcP, ⟨"on_p", "true"⟩, rfl, rfl⟩
      | tail _ h => cases h)

/-- C10: the empty string is a reserved no-match sentinel inside flag
evaluation — an override stage or rule stage that resolves to the empty
identifier is indistinguishable from that stage being absent, so evaluation
falls through to the next resolution stage; and an on flag whose entire
precedence chain resolves empty yields the flag-evaluation error, which the
typed accessors absorb into the caller-supplied default. -/
theorem c10_empty_string_sentinel :
    (∀ (env : Env) (fuel : Nat) (fc : FeatureConfig) (target : Option Target)
       (m : List VariationMap),
      fc.variationToTargetMap = some m →
      evaluateVariationMap env fuel m target = "" →
      evaluateFlag env fuel fc target =
        evaluateFlag env fuel { fc with variationToTargetMap := none } target) ∧
    (∀ (env : Env) (fuel : Nat) (fc : FeatureConfig) (target : Option Target)
       (rs : List ServingRule),
      fc.rules = some rs →
      evaluateRules env fuel rs target = "" →
      evaluateFlag env fuel fc target =
        evaluateFlag env fuel { fc with rules := none } target) ∧
    (∀ (env : Env) (fuel : Nat) (identifier : String) (target : Option Target)
       (fc : FeatureConfig) (d : Bool),
      env.getFlag identifier = some fc →
      fc.kind = "boolean" →
      fc.prerequisites = none →
      fc.state = FeatureStateOn →
      overrideStage env fuel fc target = "" →
      rulesStage env fuel fc target = "" →
      distributionStage env fc target = "" →
      defaultVariationStage fc = "" →
      evaluateFlag env fuel fc target = .error .evaluationFlag ∧
      BoolVariation env fuel identifier target d = d) := by
  refine ⟨?_, ?_, ?_⟩
  · intro env fuel fc target m hm hv
    unfold evaluateFlag onVariation
    simp [overrideStage, rulesStage, distributionStage, defaultVariationStage,
      hm, hv]
  · intro env fuel fc target rs hr hv
    unfold evaluateFlag onVariation
    simp [overrideStage, rulesStage, distributionStage, defaultVariationStage,
      hr, hv]
  · intro env fuel identifier target fc d hlook hkind hpre hon h1 h2 h3 h4
    have hflag : evaluateFlag env fuel fc target = .error .evaluationFlag := by
      unfold evaluateFlag onVariation
      rw [hon]
      simp [h1, h2, h3, h4]
    refine ⟨hflag, ?_⟩
    unfold BoolVariation evaluate
    rw [hlook]
    simp [hkind, hpre, hflag]

/-- Fixture on flag with no override map, no rules, and an empty default
serve: its entire precedence chain resolves to the empty identifier. -/
def fcAllEmpty : FeatureConfig :=
  ⟨"fe", "boolean", "on", [⟨"a", "true"⟩], "a", ⟨none, none⟩, none, none, none⟩

/-- Fixture environment for the C10 witness. -/
def envC10 : Env := mkEnv [("fe", fcAllEmpty)] []

theorem c10_empty_string_sentinel_witness :
    evaluateFlag envC10 1 fcAllEmpty none = .error .evaluationFlag ∧
    BoolVariation envC10 1 "fe" none true = true :=
  c10_empty_string_sentinel.2.2 envC10 1 "fe" none fcAllEmpty true
    rfl rfl rfl rfl rfl rfl rfl rfl
